import Mathlib

/-!
Shallow embedding of the igb (Intel gigabit NIC) PCIe driver core:
the `osal` retry helper, the MAC driver's reset / MDIC / status /
interrupt operations, and the `Igb` device facade's bring-up sequence.

Registers are modelled as natural numbers below `2^32`; time-varying
hardware (self-clearing reset bit, MDIC ready/error bits) is modelled
as a stream `Nat → Nat` giving the value returned by the i-th poll of
the register.  Unbounded polling loops take explicit fuel and return
`Option`, `none` meaning the fuel ran out before the loop terminated.
-/

set_option maxRecDepth 4000

/-- The driver error enum `DError` from `osal.rs`. -/
inductive DError where
  | Unknown (msg : String)
  | Timeout
  | NoMemory
  | InvalidParameter
deriving DecidableEq, Repr

/-- `usize::MAX` on the 64-bit targets this no_std driver is built for;
`wait_for` substitutes it for the attempt count when `try_count` is `None`. -/
def USIZE_MAX : Nat := 2 ^ 64 - 1

/-- Observable outcome of a `wait_for` call: the returned `Result`, the
number of predicate evaluations performed, and the list of durations
passed to `kernel::sleep`, in order. -/
structure WaitResult where
  result : Except DError Unit
  evals : Nat
  sleeps : List Nat
deriving Repr

/-- The `for _ in 0..n` loop body of `wait_for` in `osal.rs`: evaluate the
predicate; on `true` return `Ok(())`, otherwise sleep for `interval` and
continue.  `i` is the index of the next predicate evaluation (the
predicate is a stream to model `FnMut` closures reading hardware). -/
def waitForLoop (f : Nat → Bool) (interval : Nat) : Nat → Nat → WaitResult
  | 0, _ => ⟨.error .Timeout, 0, []⟩
  | fuel + 1, i =>
    if f i then ⟨.ok (), 1, []⟩
    else
      let r := waitForLoop f interval fuel (i + 1)
      ⟨r.result, r.evals + 1, interval :: r.sleeps⟩

/-- `wait_for` from `osal.rs`: iterates `try_count.unwrap_or(usize::MAX)`
times; each iteration evaluates the predicate and, when it is false,
sleeps for `interval` before the next attempt; returns `Err(Timeout)`
when the iteration count is exhausted. -/
def wait_for (f : Nat → Bool) (interval : Nat) (try_count : Option Nat) : WaitResult :=
  waitForLoop f interval (try_count.getD USIZE_MAX) 0

/-- `CTRL::RST` is bit 26 (`Normal = 0`, `Reset = 1`); `CTRL::PHY_RST` is
bit 31, per the `register_bitfields!` block in `mac.rs`. -/
def CTRL_RST_BIT : Nat := 26

def CTRL_PHY_RST_BIT : Nat := 31

/-- `self.reg().ctrl.matches_any(&[CTRL::RST::Normal])`: the RST field
(bit 26) of the polled CTRL value equals 0. -/
def CTRL.RST.is_normal (v : Nat) : Bool := (v >>> 26) &&& 1 == 0

/-- The value stored to CTRL by `reset()`'s single read-modify-write
`ctrl.modify(CTRL::RST::Reset + CTRL::PHY_RST::SET)`: the two field
ranges are cleared and then set to `Reset = 1` / `SET = 1`
(tock-registers `modify` semantics). -/
def Mac.resetCtrlWrite (old : Nat) : Nat :=
  (old % 2 ^ 32) &&& ((2 ^ 32 - 1) ^^^ ((1 <<< 26) ||| (1 <<< 31))) ||| ((1 <<< 26) ||| (1 <<< 31))

/-- `Mac::reset` from `mac.rs`: one read-modify-write of CTRL setting RST
and PHY_RST, then `wait_for` polling `CTRL::RST::Normal` with a 1 ms
interval and `Some(1000)` attempts.  `old` is the CTRL value read by the
modify; `ctrlSeq i` is the CTRL value returned by the i-th poll after
the write.  Returns the written CTRL value and the wait outcome. -/
def Mac.reset (old : Nat) (ctrlSeq : Nat → Nat) : Nat × WaitResult :=
  (Mac.resetCtrlWrite old,
    wait_for (fun i => CTRL.RST.is_normal (ctrlSeq i)) 1 (some 1000))

/-- `MDIC::READY` is bit 28 of the MDIC register (`mac.rs` bitfields). -/
def MDIC.READY.is_set (v : Nat) : Bool := (v >>> 28) &&& 1 != 0

/-- `MDIC::E` (error) is bit 30 of the MDIC register. -/
def MDIC.E.is_set (v : Nat) : Bool := (v >>> 30) &&& 1 != 0

/-- `mdic.read(MDIC::DATA)`: the 16-bit DATA field at bit offset 0. -/
def MDIC.DATA.read (v : Nat) : Nat := v % 2 ^ 16

/-- The command word `write_mdic` stores to MDIC:
`REGADDR.val(offset) + PHY_ADDR.val(phys_addr) + DATA.val(data) + OP::Write`
with REGADDR a 5-bit field at 16, PHY_ADDR a 5-bit field at 21, DATA a
16-bit field at 0 and OP = 0b01 at 26 (tock-registers `val` masks each
value to its field width). -/
def Mac.write_mdic_cmd (phys_addr offset data : Nat) : Nat :=
  (data % 2 ^ 16) ||| ((offset % 2 ^ 5) <<< 16) ||| ((phys_addr % 2 ^ 5) <<< 21) ||| (1 <<< 26)

/-- The command word `read_mdic` stores to MDIC: as for write but with no
DATA field and OP = 0b10. -/
def Mac.read_mdic_cmd (phys_addr offset : Nat) : Nat :=
  ((offset % 2 ^ 5) <<< 16) ||| ((phys_addr % 2 ^ 5) <<< 21) ||| (2 <<< 26)

/-- The unbounded `loop` of `Mac::write_mdic`: extract MDIC; if READY is
set, break with `Ok(())`; else if E is set, return the MDIC error; else
poll again.  `s i` is the MDIC value read by the i-th poll; explicit
fuel models the lack of a bound (`none` = fuel exhausted before the
loop terminated).  On termination also reports the number of polls
consumed. -/
def Mac.write_mdic_loop (s : Nat → Nat) : Nat → Nat → Option (Except DError Unit × Nat)
  | 0, _ => none
  | fuel + 1, i =>
    let mdic := s i
    if MDIC.READY.is_set mdic then some (.ok (), 1)
    else if MDIC.E.is_set mdic then some (.error (.Unknown "MDIC read error"), 1)
    else (Mac.write_mdic_loop s fuel (i + 1)).map fun r => (r.1, r.2 + 1)

/-- The unbounded `loop` of `Mac::read_mdic`: on READY return
`Ok(DATA field)`; on E return the MDIC error; else poll again. -/
def Mac.read_mdic_loop (s : Nat → Nat) : Nat → Nat → Option (Except DError Nat × Nat)
  | 0, _ => none
  | fuel + 1, i =>
    let mdic := s i
    if MDIC.READY.is_set mdic then some (.ok (MDIC.DATA.read mdic), 1)
    else if MDIC.E.is_set mdic then some (.error (.Unknown "MDIC read error"), 1)
    else (Mac.read_mdic_loop s fuel (i + 1)).map fun r => (r.1, r.2 + 1)

/-- `Mac::write_mdic`: store the assembled command word to MDIC, memory
barrier, then poll.  The register model `s` maps the stored command word
and a poll index to the MDIC value read back, so the hardware's
responses may depend on the command issued. -/
def Mac.write_mdic (phys_addr offset data : Nat) (s : Nat → Nat → Nat) (fuel : Nat) :
    Option (Except DError Unit × Nat) :=
  Mac.write_mdic_loop (s (Mac.write_mdic_cmd phys_addr offset data)) fuel 0

/-- `Mac::read_mdic`: store the assembled read command word to MDIC,
memory barrier, then poll as in `Mac.read_mdic_loop`. -/
def Mac.read_mdic (phys_addr offset : Nat) (s : Nat → Nat → Nat) (fuel : Nat) :
    Option (Except DError Nat × Nat) :=
  Mac.read_mdic_loop (s (Mac.read_mdic_cmd phys_addr offset)) fuel 0

/-- The named 32-bit registers of the `MacRegisters` block in `mac.rs`
(reserved gaps and the RAL/RAH arrays omitted; each field is the word
at the corresponding byte offset). -/
structure MacRegs where
  ctrl : Nat
  status : Nat
  ctrl_ext : Nat
  mdic : Nat
  icr : Nat
  ims : Nat
  imc : Nat
  rctl : Nat
  tctl : Nat
  gpie : Nat
  eims : Nat
  eimc : Nat
  eiac : Nat
  eiam : Nat
  eicr : Nat
  swsm : Nat
  fwsm : Nat
  sw_fw_sync : Nat
deriving DecidableEq, Repr

/-- A register block with every register zero, used as a concrete state. -/
def MacRegs.zero : MacRegs :=
  ⟨0, 0, 0, 0, 0, 0, 0, 0, 0, 0, 0, 0, 0, 0, 0, 0, 0, 0⟩

/-- MMIO accesses observable from the three interrupt operations: the
stores to EIMC / EIMS and the (value-discarding) load of EICR. -/
inductive RegEvent where
  | write_eimc (v : Nat)
  | write_eims (v : Nat)
  | read_eicr (v : Nat)
deriving DecidableEq, Repr

/-- `u32::MAX`. -/
def U32_MAX : Nat := 2 ^ 32 - 1

/-- `Mac::clear_interrupts`: `eimc.set(u32::MAX)` then `eicr.get()`.  On
this hardware family reading EICR clears it, so the model zeroes `eicr`;
the read value is discarded by the code but recorded in the trace. -/
def Mac.clear_interrupts (s : MacRegs) : MacRegs × List RegEvent :=
  let s1 := { s with eimc := U32_MAX }
  ({ s1 with eicr := 0 }, [.write_eimc U32_MAX, .read_eicr s1.eicr])

/-- `Mac::disable_interrupts`: `eimc.set(u32::MAX)` then
`self.clear_interrupts()`. -/
def Mac.disable_interrupts (s : MacRegs) : MacRegs × List RegEvent :=
  let s1 := { s with eimc := U32_MAX }
  let r := Mac.clear_interrupts s1
  (r.1, .write_eimc U32_MAX :: r.2)

/-- `Mac::enable_interrupts`: `eims.set(u32::MAX)`. -/
def Mac.enable_interrupts (s : MacRegs) : MacRegs × List RegEvent :=
  ({ s with eims := U32_MAX }, [.write_eims U32_MAX])

/-- The `Speed` enum from `mac.rs`. -/
inductive Speed where
  | Mb1000
  | Mb100
  | Mb10
deriving DecidableEq, Repr

/-- The values of the 2-bit `STATUS::SPEED` bitfield enum. -/
inductive SpeedValue where
  | Speed10
  | Speed100
  | Speed1000
deriving DecidableEq, Repr

/-- `status.read_as_enum(STATUS::SPEED)`: the SPEED field is the 2-bit
range at offset 6; encodings 0/1/2 match `Speed10`/`Speed100`/
`Speed1000`, 3 matches no enum value (`None`). -/
def STATUS.SPEED.read_as_enum (v : Nat) : Option SpeedValue :=
  if (v >>> 6) &&& 3 = 0 then some .Speed10
  else if (v >>> 6) &&& 3 = 1 then some .Speed100
  else if (v >>> 6) &&& 3 = 2 then some .Speed1000
  else none

/-- The `MacStatus` snapshot struct from `mac.rs`. -/
structure MacStatus where
  full_duplex : Bool
  link_up : Bool
  speed : Speed
  phy_reset_asserted : Bool
deriving DecidableEq, Repr

/-- The decode performed by `Mac::status` on the value read from STATUS:
speed via `read_as_enum` with `Some(Speed1000) => Mb1000`,
`Some(Speed100) => Mb100`, any other outcome `Mb10`; FD is bit 0, LU is
bit 1, PHYRA is bit 10 (each via `is_set`). -/
def Mac.decodeStatus (v : Nat) : MacStatus :=
  let speed := match STATUS.SPEED.read_as_enum v with
    | some .Speed1000 => Speed.Mb1000
    | some .Speed100 => Speed.Mb100
    | _ => Speed.Mb10
  { full_duplex := (v >>> 0) &&& 1 != 0
    link_up := (v >>> 1) &&& 1 != 0
    speed := speed
    phy_reset_asserted := (v >>> 10) &&& 1 != 0 }

/-- `Mac::status`: one read of STATUS (`extract`), decode, no writes; the
returned register state is the unchanged block. -/
def Mac.status (s : MacRegs) : MacStatus × MacRegs :=
  (Mac.decodeStatus s.status, s)

/-- `Igb::status` just delegates to `Mac::status` through the `RefCell`. -/
def Igb.status (s : MacRegs) : MacStatus × MacRegs :=
  Mac.status s

/-- `Igb::check_vid_did` from `lib.rs`:
`vid == 0x8086 && [0x10C9, 0x1533].contains(&did)`. -/
def Igb.check_vid_did (vid did : Nat) : Bool :=
  vid == 0x8086 && ([0x10C9, 0x1533] : List Nat).contains did

/-- The operations invoked by `Igb::open` (on the MAC or delegated to the
PHY driver), used to record invocation order. -/
inductive Step where
  | disable_interrupts
  | reset
  | phy_power_up
  | phy_enable_auto_negotiation
  | phy_wait_auto_negotiation
deriving DecidableEq, Repr

/-- Results of the (externally implemented) PHY driver operations that
`Igb::open` delegates to.  `power_up` is indexed by how many `power_up`
calls have already happened, so a model can make a later call fail. -/
structure PhyModel where
  power_up : Nat → Except DError Unit
  enable_auto_negotiation : Except DError Unit
  wait_auto_negotiation : Except DError Unit

/-- A PHY model in which every operation succeeds. -/
def PhyModel.allOk : PhyModel :=
  ⟨fun _ => .ok (), .ok (), .ok ()⟩

/-- `Igb::setup_phy_and_the_link`: `phy.power_up()?` then
`phy.enable_auto_negotiation()?`.  `n` is the number of `power_up`
calls made before this one; returns the result and the steps invoked. -/
def Igb.setup_phy_and_the_link (phy : PhyModel) (n : Nat) :
    Except DError Unit × List Step :=
  match phy.power_up n with
  | .error e => (.error e, [.phy_power_up])
  | .ok _ =>
    match phy.enable_auto_negotiation with
    | .error e => (.error e, [.phy_power_up, .phy_enable_auto_negotiation])
    | .ok _ => (.ok (), [.phy_power_up, .phy_enable_auto_negotiation])

/-- `Igb::open` from `lib.rs`: disable interrupts; `mac.reset()?`;
disable interrupts; `phy.power_up()?`; `setup_phy_and_the_link()?`
(which calls `power_up` again and then `enable_auto_negotiation`);
`phy.wait_for_auto_negotiation_complete()?`.  `resetRes` is the result
of the MAC reset; the returned list records every step invoked, in
order. -/
def Igb.open' (resetRes : Except DError Unit) (phy : PhyModel) :
    Except DError Unit × List Step :=
  let tr0 : List Step := [.disable_interrupts, .reset]
  match resetRes with
  | .error e => (.error e, tr0)
  | .ok _ =>
    let tr1 := tr0 ++ [.disable_interrupts, .phy_power_up]
    match phy.power_up 0 with
    | .error e => (.error e, tr1)
    | .ok _ =>
      match Igb.setup_phy_and_the_link phy 1 with
      | (.error e, tr) => (.error e, tr1 ++ tr)
      | (.ok _, tr) =>
        let tr2 := tr1 ++ tr ++ [.phy_wait_auto_negotiation]
        match phy.wait_auto_negotiation with
        | .error e => (.error e, tr2)
        | .ok _ => (.ok (), tr2)

/- ### Helper lemmas about the wait loop -/

/-- A never-true predicate makes the wait loop consume all its fuel, one
evaluation and one sleep per attempt, and end in `Timeout`. -/
theorem waitForLoop_all_false (f : Nat → Bool) (interval : Nat)
    (h : ∀ j, f j = false) :
    ∀ fuel i, waitForLoop f interval fuel i =
      ⟨.error .Timeout, fuel, List.replicate fuel interval⟩ := by
  intro fuel
  induction fuel with
  | zero => intro i; rfl
  | succ n ih =>
    intro i
    simp [waitForLoop, h i, ih (i + 1), List.replicate_succ]

/-- If the predicate is false for the first `k` attempts starting at `i`
and true on attempt `i + k`, the wait loop succeeds after exactly
`k + 1` evaluations and `k` sleeps, provided the fuel exceeds `k`. -/
theorem waitForLoop_first_true (f : Nat → Bool) (interval : Nat) :
    ∀ k i fuel, k < fuel → f (i + k) = true → (∀ j, j < k → f (i + j) = false) →
      waitForLoop f interval fuel i =
        ⟨.ok (), k + 1, List.replicate k interval⟩ := by
  intro k
  induction k with
  | zero =>
    intro i fuel hfuel htrue _
    match fuel, hfuel with
    | fuel + 1, _ =>
      simp at htrue
      simp [waitForLoop, htrue]
  | succ n ih =>
    intro i fuel hfuel htrue hfalse
    match fuel, hfuel with
    | fuel + 1, hfuel =>
      have h0 : f i = false := by
        have := hfalse 0 (Nat.succ_pos n)
        simpa using this
      have hrec := ih (i + 1) fuel (Nat.lt_of_succ_lt_succ hfuel)
        (by rw [show i + 1 + n = i + (n + 1) by omega]; exact htrue)
        (fun j hj => by
          rw [show i + 1 + j = i + (j + 1) by omega]
          exact hfalse (j + 1) (Nat.succ_lt_succ hj))
      simp [waitForLoop, h0, hrec, List.replicate_succ]

/-- A wait loop whose predicate becomes true before the fuel runs out
returns `Ok(())`. -/
theorem waitForLoop_result_ok (f : Nat → Bool) (interval fuel : Nat)
    (h : ∃ j, j < fuel ∧ f j = true) :
    (waitForLoop f interval fuel 0).result = .ok () := by
  obtain ⟨j, hj, hfj⟩ := h
  have hex : ∃ n, f n = true := ⟨j, hfj⟩
  have hk := Nat.find_spec hex
  have hmin : ∀ m, m < Nat.find hex → f m = false := fun m hm => by
    have := Nat.find_min hex hm
    simpa using this
  rw [waitForLoop_first_true f interval (Nat.find hex) 0 fuel
    (Nat.lt_of_le_of_lt (Nat.find_min' hex hfj) hj)
    (by simpa using hk) (fun m hm => by simpa using hmin m hm)]

/- ### Helper lemmas about the MDIC polling loops -/

/-- `write_mdic`'s loop succeeds on the first poll with READY set,
consuming exactly `k + 1` polls, when neither READY nor E was set on
any earlier poll. -/
theorem write_mdic_loop_first_ready (s : Nat → Nat) :
    ∀ k i fuel, k < fuel →
      MDIC.READY.is_set (s (i + k)) = true →
      (∀ j, j < k → MDIC.READY.is_set (s (i + j)) = false ∧
        MDIC.E.is_set (s (i + j)) = false) →
      Mac.write_mdic_loop s fuel i = some (.ok (), k + 1) := by
  intro k
  induction k with
  | zero =>
    intro i fuel hf ht _
    match fuel, hf with
    | fuel + 1, _ =>
      simp only [Nat.add_zero] at ht
      simp [Mac.write_mdic_loop, ht]
  | succ n ih =>
    intro i fuel hf ht hfalse
    match fuel, hf with
    | fuel + 1, hf =>
      obtain ⟨hr0, he0⟩ := hfalse 0 (Nat.succ_pos n)
      simp only [Nat.add_zero] at hr0 he0
      have hrec := ih (i + 1) fuel (Nat.lt_of_succ_lt_succ hf)
        (by rw [show i + 1 + n = i + (n + 1) by omega]; exact ht)
        (fun j hj => by
          rw [show i + 1 + j = i + (j + 1) by omega]
          exact hfalse (j + 1) (Nat.succ_lt_succ hj))
      simp [Mac.write_mdic_loop, hr0, he0, hrec]

/-- `write_mdic`'s loop fails with the MDIC error on the first poll with
E set (READY clear there and on all earlier polls). -/
theorem write_mdic_loop_first_error (s : Nat → Nat) :
    ∀ k i fuel, k < fuel →
      MDIC.READY.is_set (s (i + k)) = false →
      MDIC.E.is_set (s (i + k)) = true →
      (∀ j, j < k → MDIC.READY.is_set (s (i + j)) = false ∧
        MDIC.E.is_set (s (i + j)) = false) →
      Mac.write_mdic_loop s fuel i =
        some (.error (.Unknown "MDIC read error"), k + 1) := by
  intro k
  induction k with
  | zero =>
    intro i fuel hf hr he _
    match fuel, hf with
    | fuel + 1, _ =>
      simp only [Nat.add_zero] at hr he
      simp [Mac.write_mdic_loop, hr, he]
  | succ n ih =>
    intro i fuel hf hr he hfalse
    match fuel, hf with
    | fuel + 1, hf =>
      obtain ⟨hr0, he0⟩ := hfalse 0 (Nat.succ_pos n)
      simp only [Nat.add_zero] at hr0 he0
      have hrec := ih (i + 1) fuel (Nat.lt_of_succ_lt_succ hf)
        (by rw [show i + 1 + n = i + (n + 1) by omega]; exact hr)
        (by rw [show i + 1 + n = i + (n + 1) by omega]; exact he)
        (fun j hj => by
          rw [show i + 1 + j = i + (j + 1) by omega]
          exact hfalse (j + 1) (Nat.succ_lt_succ hj))
      simp [Mac.write_mdic_loop, hr0, he0, hrec]

/-- `read_mdic`'s loop returns the DATA field of the first poll with
READY set, consuming exactly `k + 1` polls. -/
theorem read_mdic_loop_first_ready (s : Nat → Nat) :
    ∀ k i fuel, k < fuel →
      MDIC.READY.is_set (s (i + k)) = true →
      (∀ j, j < k → MDIC.READY.is_set (s (i + j)) = false ∧
        MDIC.E.is_set (s (i + j)) = false) →
      Mac.read_mdic_loop s fuel i =
        some (.ok (MDIC.DATA.read (s (i + k))), k + 1) := by
  intro k
  induction k with
  | zero =>
    intro i fuel hf ht _
    match fuel, hf with
    | fuel + 1, _ =>
      simp only [Nat.add_zero] at ht ⊢
      simp [Mac.read_mdic_loop, ht]
  | succ n ih =>
    intro i fuel hf ht hfalse
    match fuel, hf with
    | fuel + 1, hf =>
      obtain ⟨hr0, he0⟩ := hfalse 0 (Nat.succ_pos n)
      simp only [Nat.add_zero] at hr0 he0
      have hrec := ih (i + 1) fuel (Nat.lt_of_succ_lt_succ hf)
        (by rw [show i + 1 + n = i + (n + 1) by omega]; exact ht)
        (fun j hj => by
          rw [show i + 1 + j = i + (j + 1) by omega]
          exact hfalse (j + 1) (Nat.succ_lt_succ hj))
      rw [show i + (n + 1) = i + 1 + n by omega]
      simp [Mac.read_mdic_loop, hr0, he0, hrec]

/-- `read_mdic`'s loop fails with the MDIC error on the first poll with
E set (READY clear there and on all earlier polls); no data is
returned. -/
theorem read_mdic_loop_first_error (s : Nat → Nat) :
    ∀ k i fuel, k < fuel →
      MDIC.READY.is_set (s (i + k)) = false →
      MDIC.E.is_set (s (i + k)) = true →
      (∀ j, j < k → MDIC.READY.is_set (s (i + j)) = false ∧
        MDIC.E.is_set (s (i + j)) = false) →
      Mac.read_mdic_loop s fuel i =
        some (.error (.Unknown "MDIC read error"), k + 1) := by
  intro k
  induction k with
  | zero =>
    intro i fuel hf hr he _
    match fuel, hf with
    | fuel + 1, _ =>
      simp only [Nat.add_zero] at hr he
      simp [Mac.read_mdic_loop, hr, he]
  | succ n ih =>
    intro i fuel hf hr he hfalse
    match fuel, hf with
    | fuel + 1, hf =>
      obtain ⟨hr0, he0⟩ := hfalse 0 (Nat.succ_pos n)
      simp only [Nat.add_zero] at hr0 he0
      have hrec := ih (i + 1) fuel (Nat.lt_of_succ_lt_succ hf)
        (by rw [show i + 1 + n = i + (n + 1) by omega]; exact hr)
        (by rw [show i + 1 + n = i + (n + 1) by omega]; exact he)
        (fun j hj => by
          rw [show i + 1 + j = i + (j + 1) by omega]
          exact hfalse (j + 1) (Nat.succ_lt_succ hj))
      simp [Mac.read_mdic_loop, hr0, he0, hrec]

/- ### Claim theorems -/

/-- C1: `reset()` sets the RST bit (26) and the PHY_RST bit (31) of CTRL
in a single read-modify-write (both bits set in the stored word, every
other bit of the old 32-bit value preserved), then polls CTRL through
`wait_for` with a 1 ms interval and 1000 attempts: every register model
whose RST field reads back Normal within 1000 polls yields `Ok(())`,
and every model whose RST field never reads back Normal yields
`Err(Timeout)` after exactly 1000 predicate evaluations (with a 1 ms
sleep after each of the 1000 failed attempts). -/
theorem reset_writes_and_polls (old : Nat) (seq : Nat → Nat) :
    ((Mac.reset old seq).1.testBit 26 = true
      ∧ (Mac.reset old seq).1.testBit 31 = true
      ∧ ∀ b, b ≠ 26 → b ≠ 31 →
          (Mac.reset old seq).1.testBit b = (old % 2 ^ 32).testBit b)
    ∧ ((∃ n, n < 1000 ∧ CTRL.RST.is_normal (seq n) = true) →
        (Mac.reset old seq).2.result = .ok ())
    ∧ ((∀ i, CTRL.RST.is_normal (seq i) = false) →
        (Mac.reset old seq).2 =
          ⟨.error .Timeout, 1000, List.replicate 1000 1⟩) := by
  have h1 : (Mac.reset old seq).1 = Mac.resetCtrlWrite old := rfl
  refine ⟨⟨?_, ?_, ?_⟩, ?_, ?_⟩
  · rw [h1]
    unfold Mac.resetCtrlWrite
    rw [Nat.testBit_or]
    have hM : Nat.testBit ((1 <<< 26) ||| (1 <<< 31)) 26 = true := by decide
    rw [hM, Bool.or_true]
  · rw [h1]
    unfold Mac.resetCtrlWrite
    rw [Nat.testBit_or]
    have hM : Nat.testBit ((1 <<< 26) ||| (1 <<< 31)) 31 = true := by decide
    rw [hM, Bool.or_true]
  · intro b hb26 hb31
    rw [h1]
    have hMb : Nat.testBit ((1 <<< 26) ||| (1 <<< 31)) b = false := by
      rw [Nat.one_shiftLeft, Nat.one_shiftLeft, Nat.testBit_or,
        Nat.testBit_two_pow, Nat.testBit_two_pow]
      simp only [Bool.or_eq_false_iff, decide_eq_false_iff_not]
      exact ⟨Ne.symm hb26, Ne.symm hb31⟩
    unfold Mac.resetCtrlWrite
    rw [Nat.testBit_or, Nat.testBit_and]
    by_cases hlt : b < 32
    · have hUb : Nat.testBit ((2 ^ 32 - 1) ^^^ ((1 <<< 26) ||| (1 <<< 31))) b = true := by
        rw [Nat.testBit_xor, Nat.testBit_two_pow_sub_one, hMb]
        simp only [Bool.xor_false]
        exact decide_eq_true hlt
      rw [hMb, hUb, Bool.and_true, Bool.or_false]
    · have hx : old % 2 ^ 32 < 2 ^ b :=
        lt_of_lt_of_le (Nat.mod_lt _ (by norm_num))
          (Nat.pow_le_pow_right (by norm_num) (Nat.le_of_not_lt hlt))
      have hmod := Nat.testBit_lt_two_pow hx
      rw [hmod, hMb, Bool.false_and, Bool.false_or]
  · intro h
    exact waitForLoop_result_ok _ 1 1000 h
  · intro h
    exact waitForLoop_all_false _ 1 h 1000 0

/-- Witness for C1: a CTRL model stuck with RST = Reset forever times out
after exactly 1000 evaluations with 1000 sleeps of 1 ms. -/
theorem reset_writes_and_polls_witness :
    (∀ i : Nat, CTRL.RST.is_normal ((fun (_ : Nat) => (1 : Nat) <<< 26) i) = false)
    ∧ (Mac.reset 0 (fun (_ : Nat) => (1 : Nat) <<< 26)).2 =
        ⟨.error .Timeout, 1000, List.replicate 1000 1⟩ :=
  ⟨fun _ => by show CTRL.RST.is_normal ((1 : Nat) <<< 26) = false; decide,
    (reset_writes_and_polls 0 (fun (_ : Nat) => (1 : Nat) <<< 26)).2.2
      (fun _ => by show CTRL.RST.is_normal ((1 : Nat) <<< 26) = false; decide)⟩

/-- C4 (amended): `wait_for` evaluates the predicate repeatedly, sleeping
for `interval` after each failed attempt; with `some n` attempts a
never-true predicate yields `Err(Timeout)` after exactly `n`
evaluations; with `none` the count defaults to `usize::MAX`, so the
retry is effectively unbounded but a never-true predicate still returns
`Err(Timeout)` after `2^64 - 1` evaluations rather than looping
forever. -/
theorem wait_for_retry_budget (f : Nat → Bool) (interval n : Nat) :
    ((∃ j, j < n ∧ f j = true) → (wait_for f interval (some n)).result = .ok ())
    ∧ ((∀ j, f j = false) →
        wait_for f interval (some n) =
          ⟨.error .Timeout, n, List.replicate n interval⟩)
    ∧ ((∀ j, f j = false) →
        wait_for f interval none =
          ⟨.error .Timeout, USIZE_MAX, List.replicate USIZE_MAX interval⟩) :=
  ⟨fun h => waitForLoop_result_ok f interval n h,
    fun h => waitForLoop_all_false f interval h n 0,
    fun h => waitForLoop_all_false f interval h USIZE_MAX 0⟩

/-- Counterexample for C4 as stated: with `max_attempts = None` and a
predicate that is never true, `wait_for` does return `Err(Timeout)`
(after `usize::MAX` attempts), because `None` is replaced by
`usize::MAX`, not by an infinite loop. -/
theorem wait_for_none_still_times_out :
    (wait_for (fun _ => false) 1 none).result = .error .Timeout := by
  have h := waitForLoop_all_false (fun _ => false) 1 (fun _ => rfl) USIZE_MAX 0
  show (waitForLoop (fun _ => false) 1 USIZE_MAX 0).result = .error .Timeout
  rw [h]

/-- Witness for C4 (amended): three never-true attempts produce exactly
three evaluations and three 1 ms sleeps before `Timeout`. -/
theorem wait_for_retry_budget_witness :
    (∀ j : Nat, (fun (_ : Nat) => false) j = false)
    ∧ wait_for (fun (_ : Nat) => false) 1 (some 3) =
        ⟨.error .Timeout, 3, List.replicate 3 1⟩ :=
  ⟨fun _ => rfl, (wait_for_retry_budget (fun (_ : Nat) => false) 1 3).2.1 (fun _ => rfl)⟩

/-- C2: for every `phy_addr`, `reg_offset` (and `data`) and every MDIC
register model, `write_mdic` and `read_mdic` poll MDIC in an unbounded
loop; if READY first becomes set on poll `k` (0-based; neither READY
nor E set on any earlier poll), `write_mdic` returns `Ok(())` and
`read_mdic` returns `Ok` with the 16-bit DATA field of that poll, on
exactly the `k`-th poll and never before (`k + 1` polls consumed); if E
becomes set on a poll before READY ever appears, both return
`Err(Unknown("MDIC read error"))` and no data is returned. -/
theorem mdic_poll_protocol (phys_addr offset data : Nat) (s : Nat → Nat → Nat)
    (k fuel : Nat) (hfuel : k < fuel) :
    ((MDIC.READY.is_set (s (Mac.write_mdic_cmd phys_addr offset data) k) = true ∧
        (∀ j, j < k → MDIC.READY.is_set (s (Mac.write_mdic_cmd phys_addr offset data) j) = false ∧
          MDIC.E.is_set (s (Mac.write_mdic_cmd phys_addr offset data) j) = false)) →
      Mac.write_mdic phys_addr offset data s fuel = some (.ok (), k + 1))
    ∧ ((MDIC.READY.is_set (s (Mac.write_mdic_cmd phys_addr offset data) k) = false ∧
        MDIC.E.is_set (s (Mac.write_mdic_cmd phys_addr offset data) k) = true ∧
        (∀ j, j < k → MDIC.READY.is_set (s (Mac.write_mdic_cmd phys_addr offset data) j) = false ∧
          MDIC.E.is_set (s (Mac.write_mdic_cmd phys_addr offset data) j) = false)) →
      Mac.write_mdic phys_addr offset data s fuel =
        some (.error (.Unknown "MDIC read error"), k + 1))
    ∧ ((MDIC.READY.is_set (s (Mac.read_mdic_cmd phys_addr offset) k) = true ∧
        (∀ j, j < k → MDIC.READY.is_set (s (Mac.read_mdic_cmd phys_addr offset) j) = false ∧
          MDIC.E.is_set (s (Mac.read_mdic_cmd phys_addr offset) j) = false)) →
      Mac.read_mdic phys_addr offset s fuel =
        some (.ok (MDIC.DATA.read (s (Mac.read_mdic_cmd phys_addr offset) k)), k + 1))
    ∧ ((MDIC.READY.is_set (s (Mac.read_mdic_cmd phys_addr offset) k) = false ∧
        MDIC.E.is_set (s (Mac.read_mdic_cmd phys_addr offset) k) = true ∧
        (∀ j, j < k → MDIC.READY.is_set (s (Mac.read_mdic_cmd phys_addr offset) j) = false ∧
          MDIC.E.is_set (s (Mac.read_mdic_cmd phys_addr offset) j) = false)) →
      Mac.read_mdic phys_addr offset s fuel =
        some (.error (.Unknown "MDIC read error"), k + 1)) := by
  refine ⟨?_, ?_, ?_, ?_⟩
  · intro ⟨hr, hpre⟩
    exact write_mdic_loop_first_ready _ k 0 fuel hfuel (by simpa using hr)
      (fun j hj => by simpa using hpre j hj)
  · intro ⟨hr, he, hpre⟩
    exact write_mdic_loop_first_error _ k 0 fuel hfuel (by simpa using hr)
      (by simpa using he) (fun j hj => by simpa using hpre j hj)
  · intro ⟨hr, hpre⟩
    have := read_mdic_loop_first_ready (s (Mac.read_mdic_cmd phys_addr offset))
      k 0 fuel hfuel (by simpa using hr) (fun j hj => by simpa using hpre j hj)
    simpa using this
  · intro ⟨hr, he, hpre⟩
    exact read_mdic_loop_first_error _ k 0 fuel hfuel (by simpa using hr)
      (by simpa using he) (fun j hj => by simpa using hpre j hj)

/-- Witness for C2: a model that asserts READY immediately with data
0xABCD makes `read_mdic` return that data on the first poll. -/
theorem mdic_poll_protocol_witness :
    (MDIC.READY.is_set ((fun (_ _ : Nat) => (1 <<< 28) + 43981) (Mac.read_mdic_cmd 2 3) 0) = true ∧
      (∀ j, j < 0 → MDIC.READY.is_set ((fun (_ _ : Nat) => (1 <<< 28) + 43981) (Mac.read_mdic_cmd 2 3) j) = false ∧
        MDIC.E.is_set ((fun (_ _ : Nat) => (1 <<< 28) + 43981) (Mac.read_mdic_cmd 2 3) j) = false))
    ∧ Mac.read_mdic 2 3 (fun (_ _ : Nat) => (1 <<< 28) + 43981) 5 =
        some (.ok (MDIC.DATA.read ((fun (_ _ : Nat) => (1 <<< 28) + 43981) (Mac.read_mdic_cmd 2 3) 0)), 0 + 1) := by
  have hr : MDIC.READY.is_set ((1 <<< 28) + 43981) = true := by decide
  refine ⟨⟨hr, fun j hj => absurd hj (Nat.not_lt_zero j)⟩, ?_⟩
  exact (mdic_poll_protocol 2 3 0 (fun (_ _ : Nat) => (1 <<< 28) + 43981) 0 5
    (by decide)).2.2.1 ⟨hr, fun j hj => absurd hj (Nat.not_lt_zero j)⟩

/-- C9: in the MDIC polling loops READY takes precedence over E, because
READY is tested first: on a first decisive poll where READY and E are
both set, `write_mdic` returns `Ok(())` and `read_mdic` returns `Ok`
with the DATA field, never the `Unknown("MDIC read error")` error. -/
theorem mdic_ready_beats_error (phys_addr offset data : Nat) (s : Nat → Nat → Nat)
    (k fuel : Nat) (hfuel : k < fuel) :
    ((MDIC.READY.is_set (s (Mac.write_mdic_cmd phys_addr offset data) k) = true ∧
        MDIC.E.is_set (s (Mac.write_mdic_cmd phys_addr offset data) k) = true ∧
        (∀ j, j < k → MDIC.READY.is_set (s (Mac.write_mdic_cmd phys_addr offset data) j) = false ∧
          MDIC.E.is_set (s (Mac.write_mdic_cmd phys_addr offset data) j) = false)) →
      Mac.write_mdic phys_addr offset data s fuel = some (.ok (), k + 1))
    ∧ ((MDIC.READY.is_set (s (Mac.read_mdic_cmd phys_addr offset) k) = true ∧
        MDIC.E.is_set (s (Mac.read_mdic_cmd phys_addr offset) k) = true ∧
        (∀ j, j < k → MDIC.READY.is_set (s (Mac.read_mdic_cmd phys_addr offset) j) = false ∧
          MDIC.E.is_set (s (Mac.read_mdic_cmd phys_addr offset) j) = false)) →
      Mac.read_mdic phys_addr offset s fuel =
        some (.ok (MDIC.DATA.read (s (Mac.read_mdic_cmd phys_addr offset) k)), k + 1)) := by
  constructor
  · intro ⟨hr, _, hpre⟩
    exact write_mdic_loop_first_ready _ k 0 fuel hfuel (by simpa using hr)
      (fun j hj => by simpa using hpre j hj)
  · intro ⟨hr, _, hpre⟩
    have := read_mdic_loop_first_ready (s (Mac.read_mdic_cmd phys_addr offset))
      k 0 fuel hfuel (by simpa using hr) (fun j hj => by simpa using hpre j hj)
    simpa using this

/-- Witness for C9: a poll value with READY and E both set still yields
success (write returns `Ok(())` on the first poll). -/
theorem mdic_ready_beats_error_witness :
    (MDIC.READY.is_set ((fun (_ _ : Nat) => (1 <<< 28) + (1 <<< 30) + 7) (Mac.write_mdic_cmd 1 2 3) 0) = true ∧
      MDIC.E.is_set ((fun (_ _ : Nat) => (1 <<< 28) + (1 <<< 30) + 7) (Mac.write_mdic_cmd 1 2 3) 0) = true ∧
      (∀ j, j < 0 → MDIC.READY.is_set ((fun (_ _ : Nat) => (1 <<< 28) + (1 <<< 30) + 7) (Mac.write_mdic_cmd 1 2 3) j) = false ∧
        MDIC.E.is_set ((fun (_ _ : Nat) => (1 <<< 28) + (1 <<< 30) + 7) (Mac.write_mdic_cmd 1 2 3) j) = false))
    ∧ Mac.write_mdic 1 2 3 (fun (_ _ : Nat) => (1 <<< 28) + (1 <<< 30) + 7) 4 =
        some (.ok (), 0 + 1) := by
  have hr : MDIC.READY.is_set ((1 <<< 28) + (1 <<< 30) + 7) = true := by decide
  have he : MDIC.E.is_set ((1 <<< 28) + (1 <<< 30) + 7) = true := by decide
  refine ⟨⟨hr, he, fun j hj => absurd hj (Nat.not_lt_zero j)⟩, ?_⟩
  exact (mdic_ready_beats_error 1 2 3 (fun (_ _ : Nat) => (1 <<< 28) + (1 <<< 30) + 7) 0 4
    (by decide)).1 ⟨hr, he, fun j hj => absurd hj (Nat.not_lt_zero j)⟩

/-- Counterexample for C3 as stated: with every step succeeding, the
sequence of operations `open()` invokes is not the six-step list the
claim gives — `power_up` is invoked twice (once directly and once
inside `setup_phy_and_the_link`). -/
theorem open_steps_not_six :
    ¬ ((Igb.open' (.ok ()) PhyModel.allOk).2 =
      [Step.disable_interrupts, Step.reset, Step.disable_interrupts,
       Step.phy_power_up, Step.phy_enable_auto_negotiation,
       Step.phy_wait_auto_negotiation]) := by
  decide

/-- C3 (amended): `open()` performs disable-interrupts, reset,
disable-interrupts, PHY power-up (invoked twice: once directly and once
inside `setup_phy_and_the_link`), PHY auto-negotiation enable, and
auto-negotiation wait, in that order, and is fail-fast: each failing
step's error is returned verbatim and no later step is invoked; in
particular a reset failure leaves every PHY operation uninvoked. -/
theorem open_sequence (phy : PhyModel) (e : DError) :
    (phy.power_up 0 = .ok () → phy.power_up 1 = .ok () →
      phy.enable_auto_negotiation = .ok () → phy.wait_auto_negotiation = .ok () →
      Igb.open' (.ok ()) phy = (.ok (),
        [Step.disable_interrupts, Step.reset, Step.disable_interrupts,
         Step.phy_power_up, Step.phy_power_up,
         Step.phy_enable_auto_negotiation, Step.phy_wait_auto_negotiation]))
    ∧ (Igb.open' (.error e) phy = (.error e, [Step.disable_interrupts, Step.reset])
        ∧ Step.phy_power_up ∉ (Igb.open' (.error e) phy).2
        ∧ Step.phy_enable_auto_negotiation ∉ (Igb.open' (.error e) phy).2
        ∧ Step.phy_wait_auto_negotiation ∉ (Igb.open' (.error e) phy).2)
    ∧ (phy.power_up 0 = .error e →
        Igb.open' (.ok ()) phy = (.error e,
          [Step.disable_interrupts, Step.reset, Step.disable_interrupts,
           Step.phy_power_up]))
    ∧ (phy.power_up 0 = .ok () → phy.power_up 1 = .error e →
        Igb.open' (.ok ()) phy = (.error e,
          [Step.disable_interrupts, Step.reset, Step.disable_interrupts,
           Step.phy_power_up, Step.phy_power_up]))
    ∧ (phy.power_up 0 = .ok () → phy.power_up 1 = .ok () →
        phy.enable_auto_negotiation = .error e →
        Igb.open' (.ok ()) phy = (.error e,
          [Step.disable_interrupts, Step.reset, Step.disable_interrupts,
           Step.phy_power_up, Step.phy_power_up,
           Step.phy_enable_auto_negotiation]))
    ∧ (phy.power_up 0 = .ok () → phy.power_up 1 = .ok () →
        phy.enable_auto_negotiation = .ok () → phy.wait_auto_negotiation = .error e →
        Igb.open' (.ok ()) phy = (.error e,
          [Step.disable_interrupts, Step.reset, Step.disable_interrupts,
           Step.phy_power_up, Step.phy_power_up,
           Step.phy_enable_auto_negotiation, Step.phy_wait_auto_negotiation])) := by
  refine ⟨?_, ⟨?_, ?_, ?_, ?_⟩, ?_, ?_, ?_, ?_⟩
  · intro h0 h1 h2 h3
    simp [Igb.open', Igb.setup_phy_and_the_link, h0, h1, h2, h3]
  · simp [Igb.open']
  · simp [Igb.open']
  · simp [Igb.open']
  · simp [Igb.open']
  · intro h0
    simp [Igb.open', h0]
  · intro h0 h1
    simp [Igb.open', Igb.setup_phy_and_the_link, h0, h1]
  · intro h0 h1 h2
    simp [Igb.open', Igb.setup_phy_and_the_link, h0, h1, h2]
  · intro h0 h1 h2 h3
    simp [Igb.open', Igb.setup_phy_and_the_link, h0, h1, h2, h3]

/-- Witness for C3 (amended): with every step succeeding, `open()`
returns `Ok(())` having invoked the seven-step sequence. -/
theorem open_sequence_witness :
    PhyModel.allOk.power_up 0 = .ok ()
    ∧ Igb.open' (.ok ()) PhyModel.allOk = (.ok (),
        [Step.disable_interrupts, Step.reset, Step.disable_interrupts,
         Step.phy_power_up, Step.phy_power_up,
         Step.phy_enable_auto_negotiation, Step.phy_wait_auto_negotiation]) :=
  ⟨rfl, (open_sequence PhyModel.allOk .Timeout).1 rfl rfl rfl rfl⟩

/-- Counterexample for C5 as stated: `enable_interrupts()` does not set
EIMC to all-ones — starting from the all-zero register block, EIMC is
still zero afterwards (the operation writes EIMS instead). -/
theorem enable_interrupts_leaves_eimc :
    ¬ ((Mac.enable_interrupts MacRegs.zero).1.eimc = U32_MAX) := by
  decide

/-- C5 (amended): `disable_interrupts()` and `clear_interrupts()` set
EIMC to all-ones (`0xFFFF_FFFF`); `enable_interrupts()` sets the
extended interrupt mask-set register EIMS (not EIMC) to all-ones;
`clear_interrupts()` additionally performs a read of EICR whose value
is discarded (read-for-side-effect preserved in the access trace). -/
theorem interrupt_ops_registers (s : MacRegs) :
    (Mac.disable_interrupts s).1.eimc = U32_MAX
    ∧ (Mac.clear_interrupts s).1.eimc = U32_MAX
    ∧ (Mac.enable_interrupts s).1.eims = U32_MAX
    ∧ (Mac.disable_interrupts s).2 =
        [.write_eimc U32_MAX, .write_eimc U32_MAX, .read_eicr s.eicr]
    ∧ (Mac.clear_interrupts s).2 = [.write_eimc U32_MAX, .read_eicr s.eicr]
    ∧ (Mac.enable_interrupts s).2 = [.write_eims U32_MAX] :=
  ⟨rfl, rfl, rfl, rfl, rfl, rfl⟩

/-- C6: `status()` reads STATUS once and decodes it with no error path:
speed is `Mb1000` iff the 2-bit SPEED field (bits 7:6) is `0b10`,
`Mb100` iff it is `0b01`, and `Mb10` for both remaining encodings
(`0b00` and the unrecognized `0b11`); `full_duplex`, `link_up` and
`phy_reset_asserted` are the FD (bit 0), LU (bit 1) and PHYRA (bit 10)
bits; the register block is left unchanged. -/
theorem status_decode (s : MacRegs) :
    ((Mac.status s).1.speed =
      (if (s.status >>> 6) &&& 3 = 2 then Speed.Mb1000
        else if (s.status >>> 6) &&& 3 = 1 then Speed.Mb100 else Speed.Mb10))
    ∧ (Mac.status s).1.full_duplex = s.status.testBit 0
    ∧ (Mac.status s).1.link_up = s.status.testBit 1
    ∧ (Mac.status s).1.phy_reset_asserted = s.status.testBit 10
    ∧ (Mac.status s).2 = s := by
  have hs : (Mac.status s).1 = Mac.decodeStatus s.status := rfl
  refine ⟨?_, ?_, ?_, ?_, rfl⟩
  · have h3 : (s.status >>> 6) &&& 3 ≤ 3 := Nat.and_le_right
    have hc : (s.status >>> 6) &&& 3 = 0 ∨ (s.status >>> 6) &&& 3 = 1
        ∨ (s.status >>> 6) &&& 3 = 2 ∨ (s.status >>> 6) &&& 3 = 3 := by omega
    rcases hc with h | h | h | h <;>
      simp [Mac.status, Mac.decodeStatus, STATUS.SPEED.read_as_enum, h]
  · rw [hs]
    simp [Mac.decodeStatus, Nat.testBit, Nat.and_one_is_mod, Nat.one_and_eq_mod_two]
  · rw [hs]
    simp [Mac.decodeStatus, Nat.testBit, Nat.and_one_is_mod, Nat.one_and_eq_mod_two]
  · rw [hs]
    simp [Mac.decodeStatus, Nat.testBit, Nat.and_one_is_mod, Nat.one_and_eq_mod_two]

/-- C7: `check_vid_did` is a pure predicate that is true exactly for
vendor id 0x8086 with device id 0x10C9 or 0x1533, and false for every
other pair, including vendor 0x8086 with an unlisted device id. -/
theorem check_vid_did_spec (vid did : Nat) :
    Igb.check_vid_did vid did = true ↔
      (vid = 0x8086 ∧ (did = 0x10C9 ∨ did = 0x1533)) := by
  simp [Igb.check_vid_did]

/-- C8: `status()` is a pure read: it leaves every register of the block
unchanged, and two consecutive calls with no intervening writes return
identical `MacStatus` values (both at the MAC layer and through the
`Igb` facade). -/
theorem status_is_pure (s : MacRegs) :
    (Mac.status s).2 = s
    ∧ (Igb.status s).2 = s
    ∧ (Mac.status ((Mac.status s).2)).1 = (Mac.status s).1
    ∧ (Igb.status ((Igb.status s).2)).1 = (Igb.status s).1 :=
  ⟨rfl, rfl, rfl, rfl⟩

/-- C10: `disable_interrupts()` goes through `clear_interrupts()`, so it
writes all-ones to EIMC twice and performs the acknowledging EICR read;
`enable_interrupts()` writes all-ones to EIMS only, with no EICR read;
and in all three operations every register other than EIMC, EIMS and
(via the clearing read) EICR is left unchanged. -/
theorem interrupt_ops_frame (s : MacRegs) :
    ((Mac.disable_interrupts s).1 =
        (Mac.clear_interrupts { s with eimc := U32_MAX }).1
      ∧ (Mac.disable_interrupts s).2 =
          .write_eimc U32_MAX :: (Mac.clear_interrupts { s with eimc := U32_MAX }).2)
    ∧ (Mac.disable_interrupts s).2 =
        [.write_eimc U32_MAX, .write_eimc U32_MAX, .read_eicr s.eicr]
    ∧ (Mac.enable_interrupts s).2 = [.write_eims U32_MAX]
    ∧ (∀ v, RegEvent.read_eicr v ∉ (Mac.enable_interrupts s).2)
    ∧ ((Mac.disable_interrupts s).1.ctrl = s.ctrl
        ∧ (Mac.disable_interrupts s).1.status = s.status
        ∧ (Mac.disable_interrupts s).1.ctrl_ext = s.ctrl_ext
        ∧ (Mac.disable_interrupts s).1.mdic = s.mdic
        ∧ (Mac.disable_interrupts s).1.icr = s.icr
        ∧ (Mac.disable_interrupts s).1.ims = s.ims
        ∧ (Mac.disable_interrupts s).1.imc = s.imc
        ∧ (Mac.disable_interrupts s).1.rctl = s.rctl
        ∧ (Mac.disable_interrupts s).1.tctl = s.tctl
        ∧ (Mac.disable_interrupts s).1.gpie = s.gpie
        ∧ (Mac.disable_interrupts s).1.eims = s.eims
        ∧ (Mac.disable_interrupts s).1.eiac = s.eiac
        ∧ (Mac.disable_interrupts s).1.eiam = s.eiam
        ∧ (Mac.disable_interrupts s).1.swsm = s.swsm
        ∧ (Mac.disable_interrupts s).1.fwsm = s.fwsm
        ∧ (Mac.disable_interrupts s).1.sw_fw_sync = s.sw_fw_sync)
    ∧ ((Mac.clear_interrupts s).1.ctrl = s.ctrl
        ∧ (Mac.clear_interrupts s).1.status = s.status
        ∧ (Mac.clear_interrupts s).1.ctrl_ext = s.ctrl_ext
        ∧ (Mac.clear_interrupts s).1.mdic = s.mdic
        ∧ (Mac.clear_interrupts s).1.icr = s.icr
        ∧ (Mac.clear_interrupts s).1.ims = s.ims
        ∧ (Mac.clear_interrupts s).1.imc = s.imc
        ∧ (Mac.clear_interrupts s).1.rctl = s.rctl
        ∧ (Mac.clear_interrupts s).1.tctl = s.tctl
        ∧ (Mac.clear_interrupts s).1.gpie = s.gpie
        ∧ (Mac.clear_interrupts s).1.eims = s.eims
        ∧ (Mac.clear_interrupts s).1.eiac = s.eiac
        ∧ (Mac.clear_interrupts s).1.eiam = s.eiam
        ∧ (Mac.clear_interrupts s).1.swsm = s.swsm
        ∧ (Mac.clear_interrupts s).1.fwsm = s.fwsm
        ∧ (Mac.clear_interrupts s).1.sw_fw_sync = s.sw_fw_sync)
    ∧ ((Mac.enable_interrupts s).1.ctrl = s.ctrl
        ∧ (Mac.enable_interrupts s).1.status = s.status
        ∧ (Mac.enable_interrupts s).1.ctrl_ext = s.ctrl_ext
        ∧ (Mac.enable_interrupts s).1.mdic = s.mdic
        ∧ (Mac.enable_interrupts s).1.icr = s.icr
        ∧ (Mac.enable_interrupts s).1.ims = s.ims
        ∧ (Mac.enable_interrupts s).1.imc = s.imc
        ∧ (Mac.enable_interrupts s).1.rctl = s.rctl
        ∧ (Mac.enable_interrupts s).1.tctl = s.tctl
        ∧ (Mac.enable_interrupts s).1.gpie = s.gpie
        ∧ (Mac.enable_interrupts s).1.eimc = s.eimc
        ∧ (Mac.enable_interrupts s).1.eiac = s.eiac
        ∧ (Mac.enable_interrupts s).1.eiam = s.eiam
        ∧ (Mac.enable_interrupts s).1.eicr = s.eicr
        ∧ (Mac.enable_interrupts s).1.swsm = s.swsm
        ∧ (Mac.enable_interrupts s).1.fwsm = s.fwsm
        ∧ (Mac.enable_interrupts s).1.sw_fw_sync = s.sw_fw_sync) := by
  refine ⟨⟨rfl, rfl⟩, rfl, rfl, ?_, ?_, ?_, ?_⟩
  · intro v
    simp [Mac.enable_interrupts]
  · exact ⟨rfl, rfl, rfl, rfl, rfl, rfl, rfl, rfl, rfl, rfl, rfl, rfl, rfl, rfl, rfl, rfl⟩
  · exact ⟨rfl, rfl, rfl, rfl, rfl, rfl, rfl, rfl, rfl, rfl, rfl, rfl, rfl, rfl, rfl, rfl⟩
  · exact ⟨rfl, rfl, rfl, rfl, rfl, rfl, rfl, rfl, rfl, rfl, rfl, rfl, rfl, rfl, rfl, rfl, rfl⟩
